import Mathlib

/-!
Verification of the PTAL review-notification pipeline of the `withstudiocms/artemis`
repository against its specification.

The definitions below are shallow embeddings of the TypeScript source:

* `verifySignature` — `src/packages/artemis/src/github-webhooks/http-handler.ts`
* `githubWebhookRoute` — the `POST /api/github/webhook` route of
  `src/packages/artemis/src/services/http.ts` (`GithubWebhookRoute`)
* `handleCrowdinSyncPTAL`, `handleRepositoryDispatch`, `handlePullRequestChange`
  — `src/packages/artemis/src/services/http.ts`
* `crowdinCreateSubscription` — the `crowdin.create` EventBus subscription
* `handlePTALUpdate`, `updatePTALs` — the startup catch-up sweep
* `guildCreate`, `guildDelete`, `handleGuildUpdate`, `readySyncGuilds` — the
  guild-table gateway handlers

Effects are modelled as traces: each embedded handler returns the ordered list
of observable actions (`Act`) it performs, together with the resulting store
state where the handler writes.  `Effect.forEach` and generator `for` loops are
sequential and fail-fast in the source, which the list-valued embeddings mirror.
External collaborators (node crypto HMAC, `JSON.parse`/`JSON.stringify`, the
octokit verify function, the Discord REST API) are passed in as function
parameters; concrete stand-ins are supplied only inside closed evaluation
theorems and are marked as such.
-/

namespace Artemis

/-- A row of the `ptal` table.  The table schema itself (`ptalTable`) is not among
the provided sources; the columns are those written by `addPTALRecord`
(`AddPtalRecordOpts` plus the fixed `description`) and read by the reconciler. -/
structure PtalRecord where
  channel : String
  message : String
  owner : String
  repository : String
  pr : Nat
  guildId : String
  description : String
deriving DecidableEq, Repr

/-- A row of the `crowdin_embed` table (`crowdinEmbed` in the drizzle schema):
a repository-to-channel registration. -/
structure Registration where
  owner : String
  repo : String
  channelId : String
  guildId : String
deriving DecidableEq, Repr

/-- A guild as returned by `rest.listMyGuilds()`. -/
structure Guild where
  id : String
  name : String
deriving DecidableEq, Repr

/-! ### Signature verifier (`github-webhooks/http-handler.ts`) -/

/-- The two failure modes of `verifySignature`. -/
inductive VerifyError where
  | noSignature
  | invalidSignature
deriving DecidableEq, Repr

/-- Shallow embedding of `verifySignature` from
`src/packages/artemis/src/github-webhooks/http-handler.ts` lines 28-44.
`hmacHex` stands for the hex digest node crypto computes for the raw body under
the webhook secret (`hmac.update(body).digest('hex')`); the HMAC primitive is
external library code, so the digest is passed in as data.  The source builds
`digest = "sha256=" + hex` and fails unless the header equals it exactly. -/
def verifySignature (hmacHex : String) (signature : Option String) :
    Except VerifyError Bool :=
  match signature with
  | none => Except.error VerifyError.noSignature
  | some s =>
      if s = "sha256=" ++ hmacHex then Except.ok true
      else Except.error VerifyError.invalidSignature

/-! ### The webhook route (`services/http.ts`, `GithubWebhookRoute`) -/

/-- One observable step of the webhook route, in execution order. -/
inductive RouteStep where
  | parseBody (raw : String)
  | verifyCall (payload : String)
  | forked (failed : Bool)
deriving DecidableEq, Repr

/-- What the route produced: its ordered steps and the HTTP status it answered
with.  `response = none` means the handler itself failed (only possible when
`req.json` fails on an unparseable body) and the platform layer answers. -/
structure RouteOutcome where
  steps : List RouteStep
  response : Option Nat
deriving DecidableEq, Repr

/-- An inbound request to `POST /api/github/webhook`: the two relevant headers
and the raw body bytes (as a string). -/
structure WebhookRequest where
  signature : Option String
  event : Option String
  rawBody : String
deriving DecidableEq, Repr

/-- Shallow embedding of `GithubWebhookRoute` (`services/http.ts` lines 391-427).
In source order: read headers; `400` when the signature or event header is
missing; `body = yield* req.json` (parse); `verify(JSON.stringify(body),
signature)`; `401` on mismatch; otherwise fork `handleGitHubWebhookEvent` and
answer `202`.  `parse`/`stringify` model the external `JSON.parse` /
`JSON.stringify` pair, `verify` models `github.webhooks.verify`, and
`forkFails` is the (ignored) outcome of the forked processing fiber. -/
def githubWebhookRoute {J : Type} (parse : String → Option J)
    (stringify : J → String) (verify : String → String → Bool)
    (forkFails : Bool) (req : WebhookRequest) : RouteOutcome :=
  match req.signature, req.event with
  | none, _ => { steps := [], response := some 400 }
  | some _, none => { steps := [], response := some 400 }
  | some sig, some _ =>
      match parse req.rawBody with
      | none => { steps := [RouteStep.parseBody req.rawBody], response := none }
      | some body =>
          if verify (stringify body) sig then
            { steps := [RouteStep.parseBody req.rawBody,
                        RouteStep.verifyCall (stringify body),
                        RouteStep.forked forkFails],
              response := some 202 }
          else
            { steps := [RouteStep.parseBody req.rawBody,
                        RouteStep.verifyCall (stringify body)],
              response := some 401 }

/-- Modelled from the spec: the error-to-response mapping of the
`@effect/platform` router is external library code, not part of this
repository; it answers when the handler itself fails (`req.json` on an
unparseable body).  Section 7 of the spec maps a `DecodeError` to a `400`
response, so a handler failure is rendered as `400` here. -/
def routeResponse {J : Type} (parse : String → Option J)
    (stringify : J → String) (verify : String → String → Bool)
    (forkFails : Bool) (req : WebhookRequest) : Nat :=
  (githubWebhookRoute parse stringify verify forkFails req).response.getD 400

/-- Concrete stand-in for the external `JSON.parse`∘`JSON.stringify` round trip,
used only in closed evaluation theorems: parsing keeps the body as a string
stripped of space characters, and serialization is the identity, so the
re-serialized form of a body containing whitespace differs from its raw bytes
exactly as it does for the real pair. -/
def demoParse (s : String) : Option String :=
  some (String.mk (s.data.filter (fun c => c ≠ ' ')))

/-- Concrete stand-in for the external octokit `webhooks.verify`, used only in
closed evaluation theorems: a signature is valid for a payload exactly when it
is `sha256=` followed by the payload's digest, with the (external, injective)
hex HMAC replaced by the payload itself. -/
def demoVerify (payload signature : String) : Bool :=
  signature = "sha256=" ++ payload

/-! ### Action traces

Each business handler is embedded as a function returning the ordered list of
observable actions it performs.  A list is inherently sequential, which matches
the source: generator `for` loops and `Effect.forEach` (in its default
configuration) run their body strictly one element at a time.  Debug-level log
lines that carry no decision are not modelled; warning/info/error logs that the
spec talks about are. -/

/-- An observable action of a business handler. -/
inductive Act where
  | queryCrowdinEmbed (owner repo : String)
  | queryPtal (owner repo : String) (pr : Nat)
  | queryPtalAll
  | listGuilds
  | fetchPullRequest (owner repo : String) (pr : Nat)
  | fetchReviews (owner repo : String) (pr : Nat)
  | createMessage (channelId : String)
  | editMessage (channel message : String)
  | getChannel (channel : String)
  | insertPtal (r : PtalRecord)
  | sleep (millis : Nat)
  | logWarn (msg : String)
  | logInfo (msg : String)
  | logError (msg : String)
deriving DecidableEq, Repr

/-- The `where(and(eq(owner), eq(repo)))` predicate used against the
`crowdinEmbed` table. -/
def matchesRepo (owner repo : String) (e : Registration) : Bool :=
  e.owner == owner && e.repo == repo

/-! ### Crowdin-Sync Creator, `services/http.ts` variant (`handleCrowdinSyncPTAL`) -/

/-- The body of the `for (const entry of allowList)` loop of
`handleCrowdinSyncPTAL` (`services/http.ts` lines 120-166): look the entry's
guild up in `existingGuilds`; warn and continue when the bot is not in it;
otherwise send the embed message to the entry's channel and log. -/
def crowdinEntryActs (existingGuilds : List Guild) (entry : Registration) :
    List Act :=
  match existingGuilds.find? (fun g => g.id == entry.guildId) with
  | none =>
      [Act.logWarn ("Bot is not in guild with ID " ++ entry.guildId
        ++ ", cannot send PTAL message")]
  | some g =>
      [Act.createMessage entry.channelId,
       Act.logInfo ("Sent PTAL message to guild " ++ g.name ++ " in channel "
        ++ entry.channelId)]

/-- Shallow embedding of `handleCrowdinSyncPTAL` (`services/http.ts` lines
70-167).  In source order: return (no actions) unless `action` is
`"crowdin-ptal"`; query the `crowdinEmbed` table for the repository; warn and
stop when the result is empty; warn and stop when the payload carries no
`pull_request_url`; otherwise list the bot's guilds and run the per-entry loop
over every matching registration. -/
def handleCrowdinSyncPTAL (action : String) (owner repo : String)
    (pullRequestUrl : Option String) (crowdinEmbedTable : List Registration)
    (existingGuilds : List Guild) : List Act :=
  if action ≠ "crowdin-ptal" then []
  else
    Act.queryCrowdinEmbed owner repo ::
      (let allowList := crowdinEmbedTable.filter (matchesRepo owner repo)
       if allowList.length = 0 then
         [Act.logWarn ("Received crowdin-ptal for unregistered repo "
           ++ owner ++ "/" ++ repo)]
       else
         match pullRequestUrl with
         | none =>
             [Act.logWarn ("No pull_request_url found in payload for "
               ++ owner ++ "/" ++ repo ++ ", skipping message")]
         | some _ =>
             Act.listGuilds ::
               Act.logInfo "Sending PTAL messages..." ::
               allowList.flatMap (crowdinEntryActs existingGuilds))

/-- Shallow embedding of the `repository_dispatch` branch of
`handleGitHubWebhookEvent` (`services/http.ts` lines 292-317).  The source
defaults the action to `"none"`, then runs
`if (action !== 'crowdin-ptal') { return yield* handleCrowdinSyncPTAL(...) }
return;` — i.e. it invokes the creator only when the action is NOT the
sync-trigger constant, and returns without doing anything when it is. -/
def handleRepositoryDispatch (action : Option String) (owner repo : String)
    (pullRequestUrl : Option String) (crowdinEmbedTable : List Registration)
    (existingGuilds : List Guild) : List Act :=
  let act := action.getD "none"
  if act ≠ "crowdin-ptal" then
    handleCrowdinSyncPTAL act owner repo pullRequestUrl crowdinEmbedTable
      existingGuilds
  else []

/-! ### Crowdin-Sync Creator, EventBus variant (`crowdinCreateSubscription`) -/

/-- The PTAL record `addPTALRecord` inserts for one registration: the
registration's channel, the id of the message the Discord REST call just
created, the event's repository key, and the fixed description. -/
def mkPtalRecord (owner repo : String) (pr : Nat) (ref : Registration)
    (messageId : String) : PtalRecord :=
  { channel := ref.channelId
    message := messageId
    owner := owner
    repository := repo
    pr := pr
    guildId := ref.guildId
    description := "Crowdin Sync Request" }

/-- The final `Effect.forEach` of `crowdinCreateSubscription`: for each prepared
registration, `rest.createMessage(channelId, ...).pipe(Effect.tap(makePTALDbTap))`
— attempt the send, and on success insert the PTAL record for the returned
message id.  `Effect.forEach` is sequential and fail-fast, so a failing send
stops the remaining registrations; the returned flag records whether the loop
ran to completion.  `send` models the external Discord REST call: `Except.ok`
carries the created message's id. -/
def crowdinCreateLoop (owner repo : String) (pr : Nat)
    (send : Registration → Except Unit String) :
    List PtalRecord → List Registration → List PtalRecord × List Act × Bool
  | st, [] => (st, [], true)
  | st, ref :: rest =>
      match send ref with
      | Except.error _ => (st, [Act.createMessage ref.channelId], false)
      | Except.ok mid =>
          let r := mkPtalRecord owner repo pr ref mid
          let out := crowdinCreateLoop owner repo pr send (st ++ [r]) rest
          (out.1, Act.createMessage ref.channelId :: Act.insertPtal r :: out.2.1,
            out.2.2)

/-- Shallow embedding of the `crowdin.create` EventBus subscription
(`crowdinCreateSubscription`, the canonical EventBus listener, lines 64-166 of
its file).  In source order: query the `crowdinEmbed` registrations and fetch
the pull request and its reviews once (`Effect.all`); then for each
registration build the embed, send a message to its channel and insert a PTAL
record pointing at the created message; a `catchAllCause` around the whole
pipeline logs a single error when any step failed.  Returns the final `ptal`
table and the action trace. -/
def crowdinCreateSubscription (owner repo : String) (pr : Nat)
    (crowdinEmbedTable : List Registration)
    (send : Registration → Except Unit String) (st : List PtalRecord) :
    List PtalRecord × List Act :=
  let refs := crowdinEmbedTable.filter (matchesRepo owner repo)
  let out := crowdinCreateLoop owner repo pr send st refs
  (out.1,
    Act.queryCrowdinEmbed owner repo ::
      Act.fetchPullRequest owner repo pr ::
      Act.fetchReviews owner repo pr ::
      out.2.1 ++
      (if out.2.2 then []
       else [Act.logError "Error processing Crowdin create event"]))

/-! ### Reconciler (`handlePullRequestChange`) and the edit routine -/

/-- Modelled from the spec: `editPTALEmbed` lives in `utils/ptal.ts`, which is
not among the provided sources (only its callers are).  Per spec section 4.5
steps 2-5 it fetches the current PR and review state, renders the embed and
submits an edit for `(record.channel, record.message)`, and per step 5 (and the
caller's own doc comment) a failure editing one record is caught and logged
inside the per-record unit of work.  `editOk` injects which records' edits
fail. -/
def editPTALEmbed (editOk : PtalRecord → Bool) (r : PtalRecord) : List Act :=
  Act.fetchPullRequest r.owner r.repository r.pr ::
    Act.fetchReviews r.owner r.repository r.pr ::
    (if editOk r then [Act.editMessage r.channel r.message]
     else [Act.logError ("Failed to edit PTAL message " ++ r.message)])

/-- The `where(and(eq(owner), eq(repository), eq(pr)))` predicate used against
the `ptal` table. -/
def matchesPtal (owner repo : String) (pr : Nat) (r : PtalRecord) : Bool :=
  r.owner == owner && r.repository == repo && r.pr == pr

/-- Shallow embedding of `handlePullRequestChange` (`services/http.ts` lines
195-247): query the `ptal` table for records matching the event's
`(owner, repository, pr)`; return early when none match; otherwise run
`editPTALEmbed` on each entry in order. -/
def handlePullRequestChange (owner repo : String) (pr : Nat)
    (table : List PtalRecord) (editOk : PtalRecord → Bool) : List Act :=
  Act.queryPtal owner repo pr ::
    (let data := table.filter (matchesPtal owner repo pr)
     if data.length = 0 then []
     else data.flatMap (editPTALEmbed editOk))

/-! ### Startup catch-up sweep (`handlePTALUpdate` / `updatePTALs`) -/

/-- Shallow embedding of the per-record step `handlePTALUpdate` of the startup
sweep: `yield* effectSleep2Seconds.pipe(() => rest.getChannel(ptal.channel))`
followed (when the channel exists) by
`yield* effectSleep2Seconds.pipe(() => editPTALEmbed(ptal))`.
`x.pipe(f)` is `f(x)`; with `f = () => eff` the argument — the sleep effect —
is discarded and `eff` alone is yielded, so no `Act.sleep` is ever emitted:
the embedding mirrors that the 2-second delay never executes. -/
def handlePTALUpdate (channelExists : String → Bool)
    (editOk : PtalRecord → Bool) (r : PtalRecord) : List Act :=
  Act.getChannel r.channel ::
    (if channelExists r.channel then editPTALEmbed editOk r else [])

/-- Shallow embedding of `updatePTALs`: select every `ptal` row, run
`handlePTALUpdate` on each in order (`Effect.forEach`, sequential), then log
the single completion line (`Effect.tap`). -/
def updatePTALs (table : List PtalRecord) (channelExists : String → Bool)
    (editOk : PtalRecord → Bool) : List Act :=
  Act.queryPtalAll ::
    table.flatMap (handlePTALUpdate channelExists editOk) ++
    [Act.logInfo "PTAL messages have been updated."]

/-! ### Store semantics of a trace -/

/-- How one action changes the `ptal` table: `insertPtal` appends a row; no
other action touches the table. -/
def applyAct (st : List PtalRecord) (a : Act) : List PtalRecord :=
  match a with
  | Act.insertPtal r => st ++ [r]
  | _ => st

/-- The `ptal` table after running a trace. -/
def applyTrace (st : List PtalRecord) (acts : List Act) : List PtalRecord :=
  acts.foldl applyAct st

/-! ### Guild-table handlers (`GUILD_CREATE`, `GUILD_DELETE`, READY sync) -/

/-- Shallow embedding of the `GUILD_CREATE` gateway handler: select the row
with the incoming guild's id (`.get()`); insert the id only when no row was
found. -/
def guildCreate (table : List String) (gid : String) : List String :=
  match table.find? (fun g => g == gid) with
  | some _ => table
  | none => table ++ [gid]

/-- Shallow embedding of the `GUILD_DELETE` gateway handler: select the row
with the incoming guild's id; return untouched when none exists, otherwise
delete every row with that id. -/
def guildDelete (table : List String) (gid : String) : List String :=
  match table.find? (fun g => g == gid) with
  | none => table
  | some _ => table.filter (fun g => !(g == gid))

/-- Shallow embedding of `handleGuildUpdate`: check the guild list snapshot
(fetched once, before the READY sweep) for the incoming guild's id and insert
the id only when the snapshot has no such row. -/
def handleGuildUpdate (guildList : List String) (table : List String)
    (gid : String) : List String :=
  match guildList.find? (fun g => g == gid) with
  | some _ => table
  | none => table ++ [gid]

/-- The READY-event sweep: `Effect.forEach(readyData.guilds, handleGuildUpdate
guildList)` where `guildList` is the snapshot selected once before the loop.
Processes the incoming guilds in order against the fixed snapshot. -/
def readySyncGuilds (snapshot : List String) :
    List String → List String → List String
  | table, [] => table
  | table, gid :: rest =>
      readySyncGuilds snapshot (handleGuildUpdate snapshot table gid) rest

/-! ### Trace predicates and concrete fixtures for evaluation theorems -/

/-- Whether an action writes the `ptal` table. -/
def writesPtal : Act → Bool
  | Act.insertPtal _ => true
  | _ => false

/-- Whether an action is the (discarded) rate-limit delay. -/
def isSleep : Act → Bool
  | Act.sleep _ => true
  | _ => false

/-- Whether an action is an outbound chat-message creation. -/
def isCreateMessage : Act → Bool
  | Act.createMessage _ => true
  | _ => false

/-- Whether an action is an info-level log line (the sweep's summary is the
only info log its trace can contain). -/
def isInfoLog : Act → Bool
  | Act.logInfo _ => true
  | _ => false

/-- A concrete raw webhook body whose bytes contain a space, so that its
re-serialized form differs from the raw bytes. -/
def rawBodyC2 : String := "\x7b\"a\": 1\x7d"

/-- The concrete request for the C2 evaluation: both headers present, and the
signature valid for the raw body bytes under the demo HMAC. -/
def reqC2 : WebhookRequest :=
  { signature := some ("sha256=" ++ rawBodyC2)
    event := some "pull_request"
    rawBody := rawBodyC2 }

/-- A registration of `acme/widgets` used in concrete evaluations. -/
def regA : Registration :=
  { owner := "acme", repo := "widgets", channelId := "chanA", guildId := "guildA" }

/-- A second registration of `acme/widgets` used in concrete evaluations. -/
def regB : Registration :=
  { owner := "acme", repo := "widgets", channelId := "chanB", guildId := "guildB" }

/-- A guild the bot is in, matching `regA`. -/
def guildA : Guild := { id := "guildA", name := "Acme" }

/-- A send function whose call for `regA`'s channel fails and which succeeds
for every other registration. -/
def sendFailA (r : Registration) : Except Unit String :=
  if r.channelId = "chanA" then Except.error () else Except.ok "mid2"

/-- A send function that always succeeds, returning a message id derived from
the channel. -/
def sendOkAll (r : Registration) : Except Unit String :=
  Except.ok ("msg-" ++ r.channelId)

/-- A PTAL record for `acme/widgets#42` in channel `c1`. -/
def ptal1 : PtalRecord :=
  { channel := "c1", message := "m1", owner := "acme", repository := "widgets"
    pr := 42, guildId := "g1", description := "Crowdin Sync Request" }

/-- A second PTAL record for `acme/widgets#42` in channel `c2`. -/
def ptal2 : PtalRecord :=
  { channel := "c2", message := "m2", owner := "acme", repository := "widgets"
    pr := 42, guildId := "g1", description := "Crowdin Sync Request" }

/-- An edit-failure injection that fails exactly the record whose message id is
`m1`. -/
def editFail1 (r : PtalRecord) : Bool :=
  !(r.message == "m1")

/-- A channel-existence oracle under which every channel exists. -/
def chanAll (_ : String) : Bool := true

/-- An edit-failure injection under which every edit succeeds. -/
def editAll (_ : PtalRecord) : Bool := true

/-! ## Theorems -/

/-- C7: for every body (represented by its hex HMAC digest under the shared
secret), verifying the signature `sha256=` followed by that digest succeeds;
every signature differing in any byte from that string fails with
`invalidSignature`; an absent header fails with `noSignature`; and the webhook
endpoint answers `401` whenever the verify call reports a mismatch. -/
theorem C7_verify_roundtrip (hmacHex : String) :
    verifySignature hmacHex (some ("sha256=" ++ hmacHex)) = Except.ok true
  ∧ (∀ s : String, s ≠ "sha256=" ++ hmacHex →
      verifySignature hmacHex (some s) =
        Except.error VerifyError.invalidSignature)
  ∧ verifySignature hmacHex none = Except.error VerifyError.noSignature
  ∧ (∀ (J : Type) (parse : String → Option J) (stringify : J → String)
      (verify : String → String → Bool) (forkFails : Bool)
      (req : WebhookRequest) (sig ev : String) (body : J),
      req.signature = some sig → req.event = some ev →
      parse req.rawBody = some body → verify (stringify body) sig = false →
      routeResponse parse stringify verify forkFails req = 401) := by
  refine ⟨by simp [verifySignature], ?_, rfl, ?_⟩
  · intro s hs
    simp [verifySignature, hs]
  · intro J parse stringify verify forkFails req sig ev body hsig hev hparse hver
    obtain ⟨s, e, raw⟩ := req
    simp only at hsig hev hparse
    subst hsig hev
    simp [routeResponse, githubWebhookRoute, hparse, hver]

/-- C7 witness: the spec scenario — signature `sha256=deadbeef` against a body
whose digest is `ab` fails verification, the correct header verifies, a missing
header fails, and the endpoint answers `401` on a mismatching signature. -/
theorem C7_verify_roundtrip_witness :
    verifySignature "ab" (some ("sha256=" ++ "ab")) = Except.ok true
  ∧ verifySignature "ab" (some "sha256=deadbeef") =
      Except.error VerifyError.invalidSignature
  ∧ verifySignature "ab" none = Except.error VerifyError.noSignature
  ∧ routeResponse demoParse id demoVerify false
      { signature := some "sha256=deadbeef", event := some "pull_request",
        rawBody := "body" } = 401 :=
  ⟨(C7_verify_roundtrip "ab").1,
   (C7_verify_roundtrip "ab").2.1 "sha256=deadbeef" (by decide),
   (C7_verify_roundtrip "ab").2.2.1,
   (C7_verify_roundtrip "ab").2.2.2 String demoParse id demoVerify false _
     "sha256=deadbeef" "pull_request" "body" rfl rfl (by decide) (by decide)⟩

/-- C3: every response of the webhook route is `400`, `401` or `202`, with
`400` exactly when a header is missing (or, through the spec-modelled platform
mapping, when the body is unparseable), `401` exactly on a signature mismatch
and `202` — the only success code — otherwise; and the response never depends
on the outcome of the forked event processing. -/
theorem C3_webhook_response (J : Type) (parse : String → Option J)
    (stringify : J → String) (verify : String → String → Bool)
    (forkFails forkFails2 : Bool) (req : WebhookRequest) :
    (routeResponse parse stringify verify forkFails req = 400 ∨
     routeResponse parse stringify verify forkFails req = 401 ∨
     routeResponse parse stringify verify forkFails req = 202)
  ∧ (req.signature = none ∨ req.event = none →
      routeResponse parse stringify verify forkFails req = 400)
  ∧ (∀ sig ev, req.signature = some sig → req.event = some ev →
      parse req.rawBody = none →
      routeResponse parse stringify verify forkFails req = 400)
  ∧ (∀ sig ev body, req.signature = some sig → req.event = some ev →
      parse req.rawBody = some body → verify (stringify body) sig = false →
      routeResponse parse stringify verify forkFails req = 401)
  ∧ (∀ sig ev body, req.signature = some sig → req.event = some ev →
      parse req.rawBody = some body → verify (stringify body) sig = true →
      routeResponse parse stringify verify forkFails req = 202)
  ∧ (githubWebhookRoute parse stringify verify forkFails req).response =
      (githubWebhookRoute parse stringify verify forkFails2 req).response := by
  obtain ⟨s, e, raw⟩ := req
  cases s with
  | none => simp [routeResponse, githubWebhookRoute]
  | some sig =>
    cases e with
    | none => simp [routeResponse, githubWebhookRoute]
    | some ev =>
      cases hp : parse raw with
      | none => simp [routeResponse, githubWebhookRoute, hp]
      | some body =>
        cases hv : verify (stringify body) sig with
        | false => simp [routeResponse, githubWebhookRoute, hp, hv]
        | true => simp [routeResponse, githubWebhookRoute, hp, hv]

/-- C3 witness: concrete requests hitting each branch — missing signature
header gives `400`; a valid signature gives `202`; a mismatch gives `401`. -/
theorem C3_webhook_response_witness :
    routeResponse demoParse id demoVerify true
      { signature := none, event := some "push", rawBody := "b" } = 400
  ∧ routeResponse demoParse id demoVerify true
      { signature := some "sha256=b", event := some "push", rawBody := "b" }
      = 202
  ∧ routeResponse demoParse id demoVerify true
      { signature := some "sha256=x", event := some "push", rawBody := "b" }
      = 401 :=
  ⟨(C3_webhook_response String demoParse id demoVerify true false
      { signature := none, event := some "push", rawBody := "b" }).2.1
      (Or.inl rfl),
   (C3_webhook_response String demoParse id demoVerify true false
      { signature := some "sha256=b", event := some "push", rawBody := "b"
        }).2.2.2.2.1 "sha256=b" "push" "b" rfl rfl (by decide) (by decide),
   (C3_webhook_response String demoParse id demoVerify true false
      { signature := some "sha256=x", event := some "push", rawBody := "b"
        }).2.2.2.1 "sha256=x" "push" "b" rfl rfl (by decide) (by decide)⟩

/-- C2, evaluation at the failing input: for the request `reqC2` — whose raw
body contains a space and whose signature is valid for exactly those raw bytes
— the route's first step is parsing the body, the verify call receives the
re-serialized string (which differs from the raw bytes), the authentic request
is rejected with `401`, and the body of this rejected (hence never-verified)
request was parsed.  This refutes both halves of the claim: the HMAC check is
not computed over the raw bytes, and parsing is not deferred until after
verification. -/
theorem C2_parse_before_verify_eval :
    demoVerify rawBodyC2 ("sha256=" ++ rawBodyC2) = true
  ∧ (githubWebhookRoute demoParse id demoVerify false reqC2).steps =
      [RouteStep.parseBody rawBodyC2, RouteStep.verifyCall "\x7b\"a\":1\x7d"]
  ∧ "\x7b\"a\":1\x7d" ≠ rawBodyC2
  ∧ (githubWebhookRoute demoParse id demoVerify false reqC2).response =
      some 401 := by
  refine ⟨by decide, by decide, by decide, by decide⟩

/-- C1: the `repository_dispatch` branch of `handleGitHubWebhookEvent` performs
no creator processing for ANY action value — the guard at `services/http.ts`
line 313 invokes `handleCrowdinSyncPTAL` only when the action is NOT
`crowdin-ptal`, and the creator's own first check then returns immediately, so
the two guards together make the trace empty.  In particular, at the
sync-trigger action itself (where the claim requires the registration lookup,
embed construction and message creation to run) nothing at all happens, which
refutes the claim's "if" direction; the "only if" direction (no chat calls and
no store writes for other actions) holds vacuously. -/
theorem C1_dispatch_guard_inverted :
    (∀ (action : Option String) (owner repo : String)
      (pullRequestUrl : Option String) (table : List Registration)
      (guilds : List Guild),
      handleRepositoryDispatch action owner repo pullRequestUrl table guilds
        = [])
  ∧ handleRepositoryDispatch (some "crowdin-ptal") "acme" "widgets"
      (some "https://github.com/acme/widgets/pull/7") [regA] [guildA] = [] := by
  constructor
  · intro action owner repo pullRequestUrl table guilds
    by_cases h : action.getD "none" = "crowdin-ptal" <;>
      simp [handleRepositoryDispatch, handleCrowdinSyncPTAL, h]
  · rfl

/-- C8: when the creator runs for a sync dispatch event whose repository has no
channel registration in the store, its whole trace is the registration lookup
followed by the warning log — in particular it makes zero chat API calls,
inserts zero PTAL records, and completes without error. -/
theorem C8_unregistered_repo_warns (owner repo : String)
    (pullRequestUrl : Option String) (table : List Registration)
    (guilds : List Guild)
    (h : table.filter (matchesRepo owner repo) = []) :
    handleCrowdinSyncPTAL "crowdin-ptal" owner repo pullRequestUrl table
      guilds =
      [Act.queryCrowdinEmbed owner repo,
       Act.logWarn ("Received crowdin-ptal for unregistered repo "
         ++ owner ++ "/" ++ repo)] := by
  simp [handleCrowdinSyncPTAL, h]

/-- C8 witness: the spec scenario — a `crowdin-ptal` event for `acme/widgets`
with an empty registration store produces exactly the lookup and the warning. -/
theorem C8_unregistered_repo_warns_witness :
    handleCrowdinSyncPTAL "crowdin-ptal" "acme" "widgets" none [] [] =
      [Act.queryCrowdinEmbed "acme" "widgets",
       Act.logWarn ("Received crowdin-ptal for unregistered repo "
         ++ "acme" ++ "/" ++ "widgets")] :=
  C8_unregistered_repo_warns "acme" "widgets" none [] [] (by decide)

/-- When every send succeeds, the creator's `Effect.forEach` loop appends one
PTAL record per registration (pointing at the returned message id) and emits a
send followed by an insert for each, completing the loop. -/
theorem crowdinCreateLoop_all_ok (owner repo : String) (pr : Nat)
    (send : Registration → Except Unit String) (mid : Registration → String) :
    ∀ (refs : List Registration) (st : List PtalRecord),
      (∀ ref ∈ refs, send ref = Except.ok (mid ref)) →
      crowdinCreateLoop owner repo pr send st refs =
        (st ++ refs.map (fun ref => mkPtalRecord owner repo pr ref (mid ref)),
         refs.flatMap (fun ref =>
           [Act.createMessage ref.channelId,
            Act.insertPtal (mkPtalRecord owner repo pr ref (mid ref))]),
         true) := by
  intro refs
  induction refs with
  | nil => intro st _; simp [crowdinCreateLoop]
  | cons ref rest ih =>
    intro st h
    have href : send ref = Except.ok (mid ref) := h ref (by simp)
    have hrest : ∀ r ∈ rest, send r = Except.ok (mid r) := fun r hr =>
      h r (by simp [hr])
    simp [crowdinCreateLoop, href,
      ih (st ++ [mkPtalRecord owner repo pr ref (mid ref)]) hrest]

/-- A failing send aborts the creator's fail-fast `Effect.forEach`: the
registrations before the failing one are fully processed, the failing send is
attempted, and nothing after it runs. -/
theorem crowdinCreateLoop_fail_fast (owner repo : String) (pr : Nat)
    (send : Registration → Except Unit String) (mid : Registration → String) :
    ∀ (pre : List Registration) (bad : Registration)
      (post : List Registration) (st : List PtalRecord),
      (∀ ref ∈ pre, send ref = Except.ok (mid ref)) →
      send bad = Except.error () →
      crowdinCreateLoop owner repo pr send st (pre ++ bad :: post) =
        (st ++ pre.map (fun ref => mkPtalRecord owner repo pr ref (mid ref)),
         pre.flatMap (fun ref =>
           [Act.createMessage ref.channelId,
            Act.insertPtal (mkPtalRecord owner repo pr ref (mid ref))])
           ++ [Act.createMessage bad.channelId],
         false) := by
  intro pre
  induction pre with
  | nil =>
    intro bad post st _ hbad
    simp [crowdinCreateLoop, hbad]
  | cons ref rest ih =>
    intro bad post st h hbad
    have href : send ref = Except.ok (mid ref) := h ref (by simp)
    have hrest : ∀ r ∈ rest, send r = Except.ok (mid r) := fun r hr =>
      h r (by simp [hr])
    simp [crowdinCreateLoop, href,
      ih bad post (st ++ [mkPtalRecord owner repo pr ref (mid ref)]) hrest hbad]

/-- C4 counterexample: with two registrations of `acme/widgets` and the send
for the first one failing, the run inserts no PTAL record at all and never even
attempts the second registration — its whole trace is the lookup, the two
fetches, the one failed send attempt and the single whole-event error log.
The claim requires the remaining registration to still receive a message and a
record. -/
theorem C4_fanout_counterexample :
    (crowdinCreateSubscription "acme" "widgets" 7 [regA, regB] sendFailA
      []).1 = []
  ∧ (crowdinCreateSubscription "acme" "widgets" 7 [regA, regB] sendFailA
      []).2 =
      [Act.queryCrowdinEmbed "acme" "widgets",
       Act.fetchPullRequest "acme" "widgets" 7,
       Act.fetchReviews "acme" "widgets" 7,
       Act.createMessage "chanA",
       Act.logError "Error processing Crowdin create event"]
  ∧ (crowdinCreateSubscription "acme" "widgets" 7 [regA, regB] sendFailA
      []).2.countP isCreateMessage = 1 := by
  refine ⟨by decide, by decide, by decide⟩

/-- C4, amended: a sync dispatch event for a repository with N registrations
produces exactly N new chat messages and N new PTAL records, one per
registration and each pointing at the newly created message, PROVIDED every
send succeeds; when the send for one registration fails, the fail-fast loop
processes exactly the registrations before it — the ones after it are not
processed — and the failure is caught and logged once for the whole event. -/
theorem C4_fanout_amended :
    (∀ (owner repo : String) (pr : Nat) (table : List Registration)
       (send : Registration → Except Unit String) (st : List PtalRecord)
       (mid : Registration → String),
      (∀ ref ∈ table.filter (matchesRepo owner repo),
        send ref = Except.ok (mid ref)) →
      crowdinCreateSubscription owner repo pr table send st =
        (st ++ (table.filter (matchesRepo owner repo)).map
            (fun ref => mkPtalRecord owner repo pr ref (mid ref)),
         Act.queryCrowdinEmbed owner repo ::
           Act.fetchPullRequest owner repo pr ::
           Act.fetchReviews owner repo pr ::
           (table.filter (matchesRepo owner repo)).flatMap
             (fun ref => [Act.createMessage ref.channelId,
               Act.insertPtal (mkPtalRecord owner repo pr ref (mid ref))])))
  ∧ (∀ (owner repo : String) (pr : Nat) (pre post : List Registration)
       (bad : Registration) (send : Registration → Except Unit String)
       (st : List PtalRecord) (mid : Registration → String),
      (∀ ref ∈ pre, send ref = Except.ok (mid ref)) →
      send bad = Except.error () →
      crowdinCreateLoop owner repo pr send st (pre ++ bad :: post) =
        (st ++ pre.map (fun ref => mkPtalRecord owner repo pr ref (mid ref)),
         pre.flatMap (fun ref =>
           [Act.createMessage ref.channelId,
            Act.insertPtal (mkPtalRecord owner repo pr ref (mid ref))])
           ++ [Act.createMessage bad.channelId],
         false)) := by
  constructor
  · intro owner repo pr table send st mid h
    simp [crowdinCreateSubscription,
      crowdinCreateLoop_all_ok owner repo pr send mid
        (table.filter (matchesRepo owner repo)) st h]
  · intro owner repo pr pre post bad send st mid h hbad
    exact crowdinCreateLoop_fail_fast owner repo pr send mid pre bad post st h
      hbad

/-- C4 amended witness: both parts at concrete inputs — two registrations with
every send succeeding yield two records pointing at the created messages, and
a run whose second send fails processes exactly the first registration. -/
theorem C4_fanout_amended_witness :
    crowdinCreateSubscription "acme" "widgets" 7 [regA, regB] sendOkAll [] =
      ([] ++ ([regA, regB].filter (matchesRepo "acme" "widgets")).map
          (fun ref => mkPtalRecord "acme" "widgets" 7 ref
            ("msg-" ++ ref.channelId)),
       Act.queryCrowdinEmbed "acme" "widgets" ::
         Act.fetchPullRequest "acme" "widgets" 7 ::
         Act.fetchReviews "acme" "widgets" 7 ::
         ([regA, regB].filter (matchesRepo "acme" "widgets")).flatMap
           (fun ref => [Act.createMessage ref.channelId,
             Act.insertPtal (mkPtalRecord "acme" "widgets" 7 ref
               ("msg-" ++ ref.channelId))]))
  ∧ crowdinCreateLoop "acme" "widgets" 7 sendFailA [] ([regB] ++ regA :: []) =
      ([] ++ [regB].map (fun ref => mkPtalRecord "acme" "widgets" 7 ref
          "mid2"),
       [regB].flatMap (fun ref =>
         [Act.createMessage ref.channelId,
          Act.insertPtal (mkPtalRecord "acme" "widgets" 7 ref "mid2")])
         ++ [Act.createMessage regA.channelId],
       false) :=
  ⟨C4_fanout_amended.1 "acme" "widgets" 7 [regA, regB] sendOkAll []
      (fun ref => "msg-" ++ ref.channelId) (fun _ _ => rfl),
   C4_fanout_amended.2 "acme" "widgets" 7 [regB] [] regA sendFailA []
      (fun _ => "mid2")
      (by
        intro ref h
        simp only [List.mem_singleton] at h
        subst h
        rfl)
      rfl⟩

/-- C5: every PTAL record matching a pull-request/review event is an
independent unit of work — whichever other records' edits fail, each matching
record's own edit is still carried out (its message is edited when its edit
succeeds, and the failure is logged when it does not), because the per-record
failure handling lives inside the edit routine and the loop visits every
entry. -/
theorem C5_record_isolation (owner repo : String) (pr : Nat)
    (table : List PtalRecord) (editOk : PtalRecord → Bool) (r : PtalRecord)
    (hr : r ∈ table.filter (matchesPtal owner repo pr)) :
    (editOk r = true →
      Act.editMessage r.channel r.message ∈
        handlePullRequestChange owner repo pr table editOk)
  ∧ (editOk r = false →
      Act.logError ("Failed to edit PTAL message " ++ r.message) ∈
        handlePullRequestChange owner repo pr table editOk) := by
  have hne : (table.filter (matchesPtal owner repo pr)).length ≠ 0 := by
    intro h0
    rw [List.length_eq_zero] at h0
    rw [h0] at hr
    exact (List.not_mem_nil r) hr
  constructor <;> intro hok <;>
    · simp only [handlePullRequestChange, if_neg hne]
      exact List.mem_cons_of_mem _
        (List.mem_flatMap.mpr ⟨r, hr, by simp [editPTALEmbed, hok]⟩)

/-- C5 witness: with two matching records and the edit of the first one
failing, the second record's message is still edited and the first failure is
logged. -/
theorem C5_record_isolation_witness :
    Act.editMessage "c2" "m2" ∈
      handlePullRequestChange "acme" "widgets" 42 [ptal1, ptal2] editFail1
  ∧ Act.logError ("Failed to edit PTAL message " ++ "m1") ∈
      handlePullRequestChange "acme" "widgets" 42 [ptal1, ptal2] editFail1 :=
  ⟨(C5_record_isolation "acme" "widgets" 42 [ptal1, ptal2] editFail1 ptal2
      (by decide)).1 (by decide),
   (C5_record_isolation "acme" "widgets" 42 [ptal1, ptal2] editFail1 ptal1
      (by decide)).2 (by decide)⟩

/-- The per-record sweep step emits no sleep and no info-level log, for any
channel-existence and edit outcome. -/
theorem handlePTALUpdate_counts (channelExists : String → Bool)
    (editOk : PtalRecord → Bool) (r : PtalRecord) :
    (handlePTALUpdate channelExists editOk r).countP isSleep = 0
  ∧ (handlePTALUpdate channelExists editOk r).countP isInfoLog = 0 := by
  cases h1 : channelExists r.channel <;> cases h2 : editOk r <;>
    simp [handlePTALUpdate, editPTALEmbed, h1, h2, isSleep, isInfoLog]

/-- The body of the sweep over the whole table emits no sleep and no info-level
log. -/
theorem updatePTALs_flatMap_counts (channelExists : String → Bool)
    (editOk : PtalRecord → Bool) :
    ∀ table : List PtalRecord,
      (table.flatMap (handlePTALUpdate channelExists editOk)).countP isSleep
        = 0
    ∧ (table.flatMap (handlePTALUpdate channelExists editOk)).countP isInfoLog
        = 0 := by
  intro table
  induction table with
  | nil => simp
  | cons r rest ih =>
    simp [List.flatMap_cons, List.countP_append, ih.1, ih.2,
      (handlePTALUpdate_counts channelExists editOk r).1,
      (handlePTALUpdate_counts channelExists editOk r).2]

/-- C6: the startup sweep (whose list-valued trace is strictly sequential and
ends in exactly one summary log line) never sleeps between its outbound calls:
in the source, `effectSleep2Seconds.pipe(() => eff)` applies the lambda to the
sleep effect and yields `eff` alone, so the configured 2-second delay is
discarded — for every table the trace contains zero sleep actions, and the
concrete two-record run shows the edit calls issued back to back. -/
theorem C6_sweep_without_delay :
    (∀ (table : List PtalRecord) (channelExists : String → Bool)
      (editOk : PtalRecord → Bool),
      (updatePTALs table channelExists editOk).countP isSleep = 0
    ∧ (updatePTALs table channelExists editOk).countP isInfoLog = 1)
  ∧ updatePTALs [ptal1, ptal2] chanAll editAll =
      [Act.queryPtalAll,
       Act.getChannel "c1",
       Act.fetchPullRequest "acme" "widgets" 42,
       Act.fetchReviews "acme" "widgets" 42,
       Act.editMessage "c1" "m1",
       Act.getChannel "c2",
       Act.fetchPullRequest "acme" "widgets" 42,
       Act.fetchReviews "acme" "widgets" 42,
       Act.editMessage "c2" "m2",
       Act.logInfo "PTAL messages have been updated."] := by
  constructor
  · intro table channelExists editOk
    constructor <;>
      simp [updatePTALs, List.countP_append, isSleep, isInfoLog,
        (updatePTALs_flatMap_counts channelExists editOk table).1,
        (updatePTALs_flatMap_counts channelExists editOk table).2]
  · decide

/-- A trace with no `ptal`-table write leaves the table unchanged. -/
theorem applyTrace_eq_of_no_writes :
    ∀ (acts : List Act), (∀ a ∈ acts, writesPtal a = false) →
      ∀ st : List PtalRecord, applyTrace st acts = st := by
  intro acts
  induction acts with
  | nil => intro _ st; rfl
  | cons a rest ih =>
    intro h st
    have ha : writesPtal a = false := h a (List.mem_cons_self a rest)
    have hstep : applyAct st a = st := by
      cases a <;> first
        | rfl
        | simp [writesPtal] at ha
    calc applyTrace st (a :: rest)
        = applyTrace (applyAct st a) rest := rfl
      _ = applyTrace st rest := by rw [hstep]
      _ = st := ih (fun b hb => h b (List.mem_cons_of_mem a hb)) st

/-- The per-record edit routine never writes the `ptal` table. -/
theorem editPTALEmbed_no_writes (editOk : PtalRecord → Bool) (r : PtalRecord) :
    ∀ a ∈ editPTALEmbed editOk r, writesPtal a = false := by
  intro a ha
  cases h : editOk r <;> simp [editPTALEmbed, h] at ha <;>
    rcases ha with h1 | h1 | h1 <;> subst h1 <;> rfl

/-- C9: neither the Reconciler (`handlePullRequestChange`) nor the startup
sweep (`updatePTALs`) ever inserts, updates or deletes a PTAL record — both
traces are write-free, so applying either to any stored `ptal` table returns
the table unchanged; records are only ever appended by the Crowdin-Sync
Creator's insert. -/
theorem C9_reconciler_and_sweep_frame (st : List PtalRecord)
    (owner repo : String) (pr : Nat) (table : List PtalRecord)
    (editOk : PtalRecord → Bool) (channelExists : String → Bool) :
    applyTrace st (handlePullRequestChange owner repo pr table editOk) = st
  ∧ applyTrace st (updatePTALs table channelExists editOk) = st := by
  constructor
  · apply applyTrace_eq_of_no_writes
    intro a ha
    simp only [handlePullRequestChange] at ha
    rcases List.mem_cons.mp ha with h1 | h1
    · subst h1; rfl
    · by_cases hlen : (table.filter (matchesPtal owner repo pr)).length = 0
      · rw [if_pos hlen] at h1
        exact absurd h1 (List.not_mem_nil a)
      · rw [if_neg hlen] at h1
        obtain ⟨r, _, hmem⟩ := List.mem_flatMap.mp h1
        exact editPTALEmbed_no_writes editOk r a hmem
  · apply applyTrace_eq_of_no_writes
    intro a ha
    simp only [updatePTALs] at ha
    rcases List.mem_cons.mp ha with h1 | h1
    · subst h1; rfl
    · rcases List.mem_append.mp h1 with h2 | h2
      · obtain ⟨r, _, hmem⟩ := List.mem_flatMap.mp h2
        rcases List.mem_cons.mp hmem with h3 | h3
        · subst h3; rfl
        · by_cases hch : channelExists r.channel
          · rw [if_pos hch] at h3
            exact editPTALEmbed_no_writes editOk r a h3
          · rw [if_neg hch] at h3
            exact absurd h3 (List.not_mem_nil a)
      · rcases List.mem_singleton.mp h2 with h3
        subst h3; rfl

/-- A `find?` with the equality-to-`gid` predicate returning nothing means
`gid` is not in the list. -/
theorem find_eq_none_not_mem (l : List String) (gid : String)
    (h : l.find? (fun g => g == gid) = none) : gid ∉ l := by
  intro hmem
  have := List.find?_eq_none.mp h gid hmem
  simp at this

/-- Appending a fresh id preserves distinctness. -/
theorem nodup_append_singleton (l : List String) (gid : String)
    (hl : l.Nodup) (hg : gid ∉ l) : (l ++ [gid]).Nodup := by
  rw [List.nodup_append]
  refine ⟨hl, List.nodup_singleton gid, ?_⟩
  intro x hx hx1
  rw [List.mem_singleton] at hx1
  subst hx1
  exact hg hx

/-- The READY sweep preserves distinctness of the guild table when the
incoming guild list carries no duplicate ids: the sweep checks each incoming
id against the snapshot taken before the loop, every id it appends is
therefore outside the snapshot, and distinctness of the incoming list rules
out appending the same id twice. -/
theorem readySyncGuilds_nodup (snapshot : List String) :
    ∀ (incoming acc : List String), acc.Nodup → incoming.Nodup →
      (∀ g ∈ incoming, g ∈ acc → g ∈ snapshot) →
      (readySyncGuilds snapshot acc incoming).Nodup := by
  intro incoming
  induction incoming with
  | nil => intro acc hacc _ _; exact hacc
  | cons gid rest ih =>
    intro acc hacc hinc hsub
    have hrest_nodup : rest.Nodup := (List.nodup_cons.mp hinc).2
    have hgid_rest : gid ∉ rest := (List.nodup_cons.mp hinc).1
    show (readySyncGuilds snapshot (handleGuildUpdate snapshot acc gid)
      rest).Nodup
    cases hf : snapshot.find? (fun g => g == gid) with
    | some g0 =>
      have hstep : handleGuildUpdate snapshot acc gid = acc := by
        simp [handleGuildUpdate, hf]
      rw [hstep]
      exact ih acc hacc hrest_nodup
        (fun g hg hga => hsub g (List.mem_cons_of_mem gid hg) hga)
    | none =>
      have hsnap : gid ∉ snapshot := find_eq_none_not_mem snapshot gid hf
      have hstep : handleGuildUpdate snapshot acc gid = acc ++ [gid] := by
        simp [handleGuildUpdate, hf]
      rw [hstep]
      have hga : gid ∉ acc := fun hmem =>
        hsnap (hsub gid (List.mem_cons_self gid rest) hmem)
      refine ih (acc ++ [gid]) (nodup_append_singleton acc gid hacc hga)
        hrest_nodup ?_
      intro g hg hgmem
      rcases List.mem_append.mp hgmem with h1 | h1
      · exact hsub g (List.mem_cons_of_mem gid hg) h1
      · rw [List.mem_singleton] at h1
        subst h1
        exact absurd hg hgid_rest

/-- C10: every writer of the guilds table preserves per-id uniqueness — the
GUILD_CREATE handler inserts only after its point lookup finds no row, the
GUILD_DELETE handler deletes only when its lookup finds a row (and is the
identity otherwise), and the READY sync inserts only ids absent from its
snapshot, so starting from a duplicate-free table every handler leaves a
duplicate-free table (the READY sweep under the gateway's guarantee that the
READY guild list itself carries no duplicate ids). -/
theorem C10_guilds_unique (table : List String) (gid : String)
    (incoming : List String) (hT : table.Nodup) :
    (guildCreate table gid).Nodup
  ∧ (guildDelete table gid).Nodup
  ∧ (incoming.Nodup → (readySyncGuilds table table incoming).Nodup)
  ∧ (table.find? (fun g => g == gid) = none → guildDelete table gid = table)
    := by
  refine ⟨?_, ?_, ?_, ?_⟩
  · unfold guildCreate
    cases hf : table.find? (fun g => g == gid) with
    | some g0 => exact hT
    | none =>
      exact nodup_append_singleton table gid hT
        (find_eq_none_not_mem table gid hf)
  · unfold guildDelete
    cases hf : table.find? (fun g => g == gid) with
    | none => exact hT
    | some g0 => exact hT.filter _
  · intro hinc
    exact readySyncGuilds_nodup table incoming table hT hinc (fun g _ hg => hg)
  · intro hf
    simp [guildDelete, hf]

/-- C10 witness: a concrete duplicate-free table stays duplicate-free under a
create, a delete, and a READY sweep whose incoming list overlaps the table. -/
theorem C10_guilds_unique_witness :
    (guildCreate ["g1", "g2"] "g3").Nodup
  ∧ (guildDelete ["g1", "g2"] "g1").Nodup
  ∧ (readySyncGuilds ["g1", "g2"] ["g1", "g2"] ["g2", "g3"]).Nodup
  ∧ guildDelete ["g1", "g2"] "g3" = ["g1", "g2"] :=
  ⟨(C10_guilds_unique ["g1", "g2"] "g3" [] (by decide)).1,
   (C10_guilds_unique ["g1", "g2"] "g1" [] (by decide)).2.1,
   (C10_guilds_unique ["g1", "g2"] "g0" ["g2", "g3"] (by decide)).2.2.1
     (by decide),
   (C10_guilds_unique ["g1", "g2"] "g3" [] (by decide)).2.2.2 (by decide)⟩

end Artemis
